import Mathlib

/-!
Verification of the `movie_analyzer` package (src/movie_analyzer/main.py)
against its natural-language specification.

The program loads five CSV tables into pandas DataFrames held on a
`MovieAnalyzer` instance and computes descriptive statistics.  We give a
shallow embedding: each DataFrame becomes a Lean list of typed rows, each
analyzer method becomes a Lean function (methods that mutate the loaded
state take and return an explicit `AnalyzerState`), pandas coercions
(`pd.to_numeric(errors='coerce')`, `pd.to_datetime(errors='coerce')`)
become executable Lean parsers on the relevant literal formats, and the
Python `eval` used by `movies_per_genre` is modelled by carrying, for each
genres cell, the outcome of evaluating its text (a Python value or a
raised exception class).
-/

/-- Kernel-computable rational addition (`Rat.add` itself does not reduce
definitionally); `qAdd_eq` proves agreement with `+`.  Used so that
concrete program runs can be checked by `decide`. -/
def qAdd (a b : ℚ) : ℚ := Rat.divInt (a.num * b.den + a.den * b.num) (a.den * b.den)

/-- Kernel-computable rational division; `qDiv_eq` proves agreement
with `/`. -/
def qDiv (a b : ℚ) : ℚ := Rat.divInt (a.num * b.den) (a.den * b.num)

/-- Kernel-computable sum of a list of rationals; `qSum_eq` proves
agreement with `List.sum`. -/
def qSum (l : List ℚ) : ℚ := l.foldr qAdd 0

theorem qAdd_eq (a b : ℚ) : a + b = qAdd a b := Rat.add_num_den a b

theorem qDiv_eq (a b : ℚ) : a / b = qDiv a b := Rat.div_def' a b

theorem qSum_eq (l : List ℚ) : qSum l = l.sum := by
  unfold qSum
  induction l with
  | nil => rfl
  | cons a t ih => rw [List.foldr_cons, List.sum_cons, ih, qAdd_eq]

/-- Scalar content of a pandas cell as used by this program: a raw string
(object dtype as loaded from CSV), a numeric value (float64 after
`pd.to_numeric`), a timestamp (datetime64 after `pd.to_datetime`, tracked
as year/month/day), or a null (NaN / NaT). -/
inductive Cell where
  | cstr (s : String)
  | cnum (q : ℚ)
  | cdate (y m d : ℕ)
  | cnull
deriving DecidableEq, Repr

/-- Numeric value of a list of decimal digit characters; `none` if the list
is empty or contains a non-digit. -/
def natOfDigits (cs : List Char) : Option ℕ :=
  if cs.isEmpty then none
  else if cs.all Char.isDigit then
    some (cs.foldl (fun a c => 10 * a + (c.toNat - 48)) 0)
  else none

/-- Leading and trailing whitespace removed (the effect of Python/pandas
whitespace tolerance when parsing a cell), on the character list of the
cell text. -/
def trimChars (cs : List Char) : List Char :=
  ((cs.dropWhile Char.isWhitespace).reverse.dropWhile Char.isWhitespace).reverse

/-- Embeds `pd.to_numeric(_, errors='coerce')` on a single string cell for
plain decimal literals: optional sign, optional integer part, optional
fractional part (scientific notation is not exercised by this program and
is not modelled).  Unparseable strings coerce to `none` (NaN).  The value
is built with `mkRat` so that it is kernel-computable. -/
def parseNumeric (s : String) : Option ℚ :=
  let cs := trimChars s.data
  let signed : ℤ × List Char :=
    match cs with
    | '-' :: r => (-1, r)
    | '+' :: r => (1, r)
    | r => (1, r)
  let sign := signed.1
  let body := signed.2
  let intPart := body.takeWhile (fun c => c ≠ '.')
  match body.dropWhile (fun c => c ≠ '.') with
  | [] => (natOfDigits intPart).map (fun n => mkRat (sign * n) 1)
  | '.' :: frac =>
    if intPart.all Char.isDigit && frac.all Char.isDigit
        && (!intPart.isEmpty || !frac.isEmpty) then
      let iv : ℕ := intPart.foldl (fun a c => 10 * a + (c.toNat - 48)) 0
      let fv : ℕ := frac.foldl (fun a c => 10 * a + (c.toNat - 48)) 0
      some (mkRat (sign * (iv * 10 ^ frac.length + fv)) (10 ^ frac.length))
    else none
  | _ => none

/-- Embeds `pd.to_datetime(_, errors='coerce')` on a single string cell for
ISO `YYYY-MM-DD` literals (the format this program's data and the spec's
examples use; pandas accepts further formats that are not modelled).
Returns (year, month, day); unparseable strings coerce to `none` (NaT). -/
def parseDate (s : String) : Option (ℕ × ℕ × ℕ) :=
  match (trimChars s.data).splitOn '-' with
  | [y, m, d] =>
    match natOfDigits y, natOfDigits m, natOfDigits d with
    | some yv, some mv, some dv =>
      if y.length = 4 ∧ 1 ≤ mv ∧ mv ≤ 12 ∧ 1 ≤ dv ∧ dv ≤ 31 then
        some (yv, mv, dv)
      else none
    | _, _, _ => none
  | _ => none

/-- Embeds `pd.to_numeric(column, errors='coerce')` cellwise: strings are
parsed (failures become null), numbers pass through, nulls stay null.  The
datetime case never arises on the `id` column this program coerces. -/
def to_numeric : Cell → Cell
  | .cstr s =>
    match parseNumeric s with
    | some q => .cnum q
    | none => .cnull
  | .cnum q => .cnum q
  | .cdate _ _ _ => .cnull
  | .cnull => .cnull

/-- Embeds `pd.to_datetime(column, errors='coerce')` cellwise: strings are
parsed (failures become NaT), timestamps pass through, nulls stay null.
The numeric case (epoch interpretation) never arises on the
`release_date` column this program coerces. -/
def to_datetime : Cell → Cell
  | .cstr s =>
    match parseDate s with
    | some (y, m, d) => .cdate y m d
    | none => .cnull
  | .cdate y m d => .cdate y m d
  | .cnum _ => .cnull
  | .cnull => .cnull

/-- Embeds the `.dt.year` accessor: the year of a timestamp, `none` (NaN)
on anything else (in particular on NaT). -/
def dtYear : Cell → Option ℕ
  | .cdate y _ _ => some y
  | _ => none

mutual
/-- Python runtime value, as far as `eval` on a genres cell can produce one
that this program then consumes (dict keys are the string keys the data
uses).  Python lists and dicts are represented by the mutual types
`PyList` and `PyDict`.  Equality of such values (used by pandas
`value_counts` to group names) is structural equality, which matches
Python `==` on these shapes. -/
inductive PyVal where
  | vstr (s : String)
  | vint (n : ℤ)
  | vbool (b : Bool)
  | vnone
  | vlist (xs : PyList)
  | vdict (kvs : PyDict)
deriving DecidableEq
/-- Python list of `PyVal` values. -/
inductive PyList where
  | nil
  | cons (head : PyVal) (tail : PyList)
deriving DecidableEq
/-- Python dict with string keys and `PyVal` values. -/
inductive PyDict where
  | dnil
  | dcons (key : String) (val : PyVal) (tail : PyDict)
deriving DecidableEq
end

/-- Elements of a Python list, as a Lean list. -/
def PyList.toList : PyList → List PyVal
  | .nil => []
  | .cons a t => a :: PyList.toList t

/-- Python dict lookup: value of the first binding of `k`, if any. -/
def PyDict.lookup : PyDict → String → Option PyVal
  | .dnil, _ => none
  | .dcons key v t, k => if key == k then some v else PyDict.lookup t k

/-- Keys of a Python dict, in order. -/
def PyDict.keyList : PyDict → List String
  | .dnil => []
  | .dcons key _ t => key :: PyDict.keyList t

/-- Python exception classes relevant to `movies_per_genre`: the three the
`except` clause names, plus classes `eval` can raise that the clause does
not name. -/
inductive PyExc where
  | syntaxError
  | typeError
  | keyError
  | nameError
  | valueError
  | zeroDivisionError
deriving DecidableEq, Repr

/-- Exception classes caught by `except (SyntaxError, TypeError, KeyError)`
in `parse_genres`. -/
def caughtByGenres : PyExc → Bool
  | .syntaxError => true
  | .typeError => true
  | .keyError => true
  | _ => false

/-- Embeds the Python subscript `genre['name']`: a dict lookup (missing key
raises KeyError); subscripting a non-dict by a string raises TypeError. -/
def PyVal.subscriptName : PyVal → Except PyExc PyVal
  | .vdict kvs =>
    match kvs.lookup "name" with
    | some v => .ok v
    | none => .error .keyError
  | _ => .error .typeError

/-- Embeds Python iteration over a value: lists yield their elements,
strings their characters, dicts their keys; other values raise
TypeError. -/
def PyVal.iterate : PyVal → Except PyExc (List PyVal)
  | .vlist xs => .ok xs.toList
  | .vstr s => .ok (s.data.map (fun c => PyVal.vstr (String.mk [c])))
  | .vdict kvs => .ok (kvs.keyList.map (fun k => PyVal.vstr k))
  | _ => .error .typeError

/-- Embeds the inner helper of `movies_per_genre`:
`try: genres_list = eval(genres_str); return [genre['name'] for genre in
genres_list]; except (SyntaxError, TypeError, KeyError): return []`.
Since `eval` itself lies outside the embedding, the argument is the
outcome of `eval` on the cell's text (value produced, or exception class
raised).  The comprehension runs under the same `try`; only the three
named exception classes are converted to an empty list. -/
def parse_genres (evalOutcome : Except PyExc PyVal) : Except PyExc (List PyVal) :=
  let attempt : Except PyExc (List PyVal) := do
    let v ← evalOutcome
    let xs ← v.iterate
    xs.mapM PyVal.subscriptName
  match attempt with
  | .ok names => .ok names
  | .error e => if caughtByGenres e then .ok [] else .error e

/-- Stable insertion: places `x` before the first element `y` with
`before x y`; among elements it does not strictly precede, `x` stays
behind.  This is the placement discipline of pandas stable sorts and of
`nlargest(keep='first')`. -/
def insertStable (before : α → α → Bool) (x : α) : List α → List α
  | [] => [x]
  | y :: ys => if before x y then x :: y :: ys else y :: insertStable before x ys

/-- Stable insertion sort by the strict precedence test `before`. -/
def sortStable (before : α → α → Bool) : List α → List α
  | [] => []
  | x :: xs => insertStable before x (sortStable before xs)

/-- Number of occurrences of `x` in `l` under the equality test `eqb`. -/
def countOcc (eqb : α → α → Bool) (x : α) (l : List α) : ℕ :=
  (l.filter (fun y => eqb x y)).length

/-- Distinct values of `l` in order of first occurrence, under `eqb`. -/
def distinctKeys (eqb : α → α → Bool) (l : List α) : List α :=
  l.foldl (fun acc x => if acc.any (fun y => eqb y x) then acc else acc ++ [x]) []

/-- Embeds pandas `Series.value_counts` before its descending sort: each
distinct value paired with its occurrence count. -/
def valueCounts (eqb : α → α → Bool) (l : List α) : List (α × ℕ) :=
  (distinctKeys eqb l).map (fun k => (k, countOcc eqb k l))

/-- Decidable equality for `eval` outcomes (an `Except` of the modelled
exception classes and Python values), needed to evaluate concrete states. -/
instance : DecidableEq (Except PyExc PyVal) :=
  fun a b =>
    match a, b with
    | Except.ok x, Except.ok y =>
      if h : x = y then Decidable.isTrue (by rw [h]) else Decidable.isFalse (by simp [h])
    | Except.error x, Except.error y =>
      if h : x = y then Decidable.isTrue (by rw [h]) else Decidable.isFalse (by simp [h])
    | Except.ok _, Except.error _ => Decidable.isFalse (by simp)
    | Except.error _, Except.ok _ => Decidable.isFalse (by simp)

/-- Row of the metadata table (`movies_metadata.csv`) restricted to the
columns this program reads: `id` (loaded as text, object dtype),
`title`, `genres` (carried as the outcome of Python `eval` on the cell's
serialized-list text), `release_date`.  The derived `release_year` value
lives in the row; whether the column exists is tracked on `MetaDf`. -/
structure MetaRow where
  id : Cell
  title : String
  genres : Except PyExc PyVal
  release_date : Cell
  release_year : Option ℕ
deriving DecidableEq

/-- The metadata DataFrame: its rows, plus whether the derived
`release_year` column has been added by `movies_per_year`. -/
structure MetaDf where
  rows : List MetaRow
  hasReleaseYear : Bool

/-- Row of the ratings table (`ratings_small.csv`): one (user, movie,
rating) observation; `movieId` is the movie reference whose column name
differs from the metadata identifier column `id`. -/
structure RatingRow where
  userId : ℤ
  movieId : ℤ
  rating : ℚ
  timestamp : ℤ
deriving DecidableEq

/-- Row of the keywords table as this program consumes it (`top_keywords`
reads a `name` column; a missing value is `none`). -/
structure KeywordRow where
  name : Option String
deriving DecidableEq

/-- Row of the credits table; loaded but never consumed by a statistic. -/
structure CreditRow where
  cast : String
  crew : String
  movie_id : ℤ

/-- Row of the links table (`links.csv`): the id-mapping between the
MovieLens `movieId` used by ratings and the TMDB id used by metadata;
loaded but never consumed by a statistic. -/
structure LinkRow where
  movieId : ℤ
  imdbId : ℤ
  tmdbId : Option ℤ
deriving DecidableEq

/-- The loaded state held by a `MovieAnalyzer` instance after
`load_data`: the five DataFrames. -/
structure AnalyzerState where
  metadata : MetaDf
  ratings : List RatingRow
  credits : List CreditRow
  keywords : List KeywordRow
  links : List LinkRow

/-- Column list of the metadata table (restricted to the modelled columns,
in pandas order: a newly assigned column is appended at the end). -/
def metaColumns (m : MetaDf) : List String :=
  ["id", "title", "genres", "release_date"]
    ++ (if m.hasReleaseYear then ["release_year"] else [])

/-- Column list of the ratings table; no analyzer method ever assigns to
this table, so it is a constant of the embedding. -/
def ratingsColumns : List String := ["userId", "movieId", "rating", "timestamp"]

/-- Column list of the keywords table (as consumed); never assigned to. -/
def keywordsColumns : List String := ["name"]

/-- Column list of the credits table; never assigned to. -/
def creditsColumns : List String := ["cast", "crew", "id"]

/-- Column list of the links table; never assigned to. -/
def linksColumns : List String := ["movieId", "imdbId", "tmdbId"]

/-- Embeds `unique_movies_count`:
`self.metadata_df['id'].nunique()` — the number of distinct non-null
values of the `id` column (pandas `nunique` drops nulls and counts each
distinct value once). -/
def unique_movies_count (s : AnalyzerState) : ℕ :=
  (((s.metadata.rows.map (fun r => r.id)).filter
      (fun c => c ≠ Cell.cnull)).dedup).length

/-- Embeds `average_rating`:
`self.ratings_df['rating'].mean()` — the arithmetic mean of the rating
column; pandas returns NaN (here `none`) on an empty column and does not
raise. -/
def average_rating (s : AnalyzerState) : Option ℚ :=
  if s.ratings.isEmpty then none
  else some (qDiv (qSum (s.ratings.map (fun r => r.rating))) (mkRat s.ratings.length 1))

theorem average_rating_eq_mean (s : AnalyzerState) (h : ¬s.ratings.isEmpty) :
    average_rating s =
      some ((s.ratings.map (fun r => r.rating)).sum / (s.ratings.length : ℚ)) := by
  rw [average_rating, if_neg h, qSum_eq, ← qDiv_eq]
  norm_num

/-- Mean rating of the group of rating rows carrying movie reference
`k`. -/
def ratingMean (rs : List RatingRow) (k : ℤ) : ℚ :=
  let grp := rs.filter (fun r => r.movieId == k)
  qDiv (qSum (grp.map (fun r => r.rating))) (mkRat grp.length 1)

theorem ratingMean_eq_mean (rs : List RatingRow) (k : ℤ) :
    ratingMean rs k =
      ((rs.filter (fun r => r.movieId == k)).map (fun r => r.rating)).sum
        / ((rs.filter (fun r => r.movieId == k)).length : ℚ) := by
  rw [ratingMean, qSum_eq, ← qDiv_eq]
  norm_num

/-- Embeds `self.ratings_df.groupby('movieId')['rating'].mean().reset_index()`:
one row per distinct `movieId`, keys sorted ascending (pandas groupby
default `sort=True`), carrying the per-movie mean rating. -/
def groupMeans (rs : List RatingRow) : List (ℤ × ℚ) :=
  let keys := sortStable (fun a b => decide (a < b))
    ((rs.map (fun r => r.movieId)).dedup)
  keys.map (fun k => (k, ratingMean rs k))

/-- One metadata row with its `id` cell numerically coerced. -/
def coerceIdRow (r : MetaRow) : MetaRow := { r with id := to_numeric r.id }

/-- Cellwise `pd.to_numeric(self.metadata_df['id'], errors='coerce')`
applied in place to the metadata rows. -/
def coerceIds (rows : List MetaRow) : List MetaRow :=
  rows.map coerceIdRow

/-- Embeds the merge step of `top_rated_movies`: the inner merge of the
per-movie mean ratings with `metadata[['id','title']]` on `movieId = id`
after the `id` column has been coerced numeric (left rows in key order,
each matched metadata row in table order), projected to the
(title, rating) columns the method then selects. -/
def joinedMeans (s : AnalyzerState) : List (String × ℚ) :=
  ((groupMeans s.ratings).map (fun kr =>
    ((coerceIds s.metadata.rows).filter
        (fun m => m.id == Cell.cnum (kr.1 : ℚ))).map
      (fun m => (m.title, kr.2)))).flatten

/-- Embeds `top_rated_movies(n)`: group ratings by `movieId` and take the
mean rating; overwrite the metadata `id` column in place with its
numeric coercion; inner-merge the means with `metadata[['id','title']]`
on `movieId = id` (`joinedMeans`); `nlargest(n, 'rating')` (stable
descending by rating, first occurrences kept) projected to
(title, rating) records.  Returns the mutated state with the records. -/
def top_rated_movies (s : AnalyzerState) (n : ℕ) :
    AnalyzerState × List (String × ℚ) :=
  let s' : AnalyzerState :=
    { s with metadata :=
      { rows := coerceIds s.metadata.rows
        hasReleaseYear := s.metadata.hasReleaseYear } }
  (s', (sortStable (fun a b => decide (b.2 < a.2)) (joinedMeans s)).take n)

/-- Embeds `movies_per_year`: overwrite `release_date` with its datetime
coercion, assign the new derived column `release_year = release_date.dt.year`,
then `value_counts` of the year column (nulls dropped) sorted ascending
by year (`sort_index`), as a (year, count) association.  Returns the
mutated state together with the counts. -/
def yearRow (r : MetaRow) : MetaRow :=
  let rd := to_datetime r.release_date
  { r with release_date := rd, release_year := dtYear rd }

def movies_per_year (s : AnalyzerState) : AnalyzerState × List (ℕ × ℕ) :=
  let rows' := s.metadata.rows.map yearRow
  let s' : AnalyzerState :=
    { s with metadata := { rows := rows', hasReleaseYear := true } }
  let years := rows'.filterMap (fun r => r.release_year)
  (s', sortStable (fun a b => decide (a.1 < b.1))
    (valueCounts (fun a b => a == b) years))

/-- Embeds `movies_per_genre`: apply `parse_genres` to every genres cell
(pandas `apply` propagates the first uncaught exception), `explode` the
name lists (an empty list contributes nothing), and `value_counts` the
names, descending by count. -/
def movies_per_genre (s : AnalyzerState) : Except PyExc (List (PyVal × ℕ)) := do
  let parsed ← s.metadata.rows.mapM (fun r => parse_genres r.genres)
  pure (sortStable (fun a b => decide (b.2 < a.2))
    (valueCounts (fun a b => a == b) parsed.flatten))

/-- Embeds `top_keywords(n)`:
`value_counts` of the keywords `name` column (descending by count, nulls
dropped), `nlargest(n)` of those counts (stable, first kept), renamed to
(keyword, count) records. -/
def top_keywords (s : AnalyzerState) (n : ℕ) : List (String × ℕ) :=
  let names := s.keywords.filterMap (fun k => k.name)
  (sortStable (fun a b => decide (b.2 < a.2))
    (valueCounts (fun a b => a == b) names)).take n

/-! Generic facts about the sorting and counting helpers. -/

theorem insertStable_perm (before : α → α → Bool) (x : α) (l : List α) :
    List.Perm (insertStable before x l) (x :: l) := by
  induction l with
  | nil => exact List.Perm.refl _
  | cons y ys ih =>
    cases hxy : before x y with
    | true =>
      rw [insertStable, if_pos hxy]
    | false =>
      rw [insertStable, if_neg (by simp [hxy])]
      exact (List.Perm.cons y ih).trans (List.Perm.swap x y ys)

theorem sortStable_perm (before : α → α → Bool) (l : List α) :
    List.Perm (sortStable before l) l := by
  induction l with
  | nil => exact List.Perm.refl _
  | cons x xs ih =>
    rw [sortStable]
    exact (insertStable_perm before x _).trans (List.Perm.cons x ih)

theorem mem_sortStable {before : α → α → Bool} {a : α} {l : List α} :
    a ∈ sortStable before l ↔ a ∈ l :=
  (sortStable_perm before l).mem_iff

theorem insertStable_pairwise {S : α → α → Prop} {before : α → α → Bool}
    (h1 : ∀ a b, before a b = true → S a b)
    (h2 : ∀ a b, before a b = false → S b a)
    (ht : Transitive S)
    (x : α) {l : List α} (hl : l.Pairwise S) :
    (insertStable before x l).Pairwise S := by
  induction l with
  | nil => simp [insertStable]
  | cons y ys ih =>
    rcases List.pairwise_cons.mp hl with ⟨hy, hys⟩
    cases hxy : before x y with
    | true =>
      rw [insertStable, if_pos hxy]
      refine List.pairwise_cons.mpr ⟨?_, hl⟩
      intro b hb
      rcases List.mem_cons.mp hb with hbx | hb
      · rw [hbx]
        exact h1 x y hxy
      · exact ht (h1 x y hxy) (hy b hb)
    | false =>
      rw [insertStable, if_neg (by simp [hxy])]
      refine List.pairwise_cons.mpr ⟨?_, ih hys⟩
      intro b hb
      rcases List.mem_cons.mp ((insertStable_perm before x ys).mem_iff.mp hb) with hbx | hb'
      · rw [hbx]
        exact h2 x y hxy
      · exact hy b hb'

theorem sortStable_pairwise {S : α → α → Prop} {before : α → α → Bool}
    (h1 : ∀ a b, before a b = true → S a b)
    (h2 : ∀ a b, before a b = false → S b a)
    (ht : Transitive S)
    (l : List α) :
    (sortStable before l).Pairwise S := by
  induction l with
  | nil => simp [sortStable]
  | cons x xs ih =>
    rw [sortStable]
    exact insertStable_pairwise h1 h2 ht x ih

/-- The first `n` entries of a sorted list dominate everything after them. -/
theorem take_pairwise_drop {S : α → α → Prop} {l : List α}
    (hl : l.Pairwise S) (n : ℕ) :
    ∀ a ∈ l.take n, ∀ b ∈ l.drop n, S a b := by
  have h := hl
  rw [← List.take_append_drop n l, List.pairwise_append] at h
  exact h.2.2

theorem distinctKeys_mem_aux (eqb : α → α → Bool) :
    ∀ (l acc : List α) (k : α),
      k ∈ l.foldl
        (fun acc x => if acc.any (fun y => eqb y x) then acc else acc ++ [x]) acc →
      k ∈ acc ∨ k ∈ l := by
  intro l
  induction l with
  | nil => exact fun acc k h => Or.inl h
  | cons x xs ih =>
    intro acc k h
    rw [List.foldl_cons] at h
    rcases ih _ k h with hacc | hxs
    · cases hc : acc.any (fun y => eqb y x) with
      | true =>
        rw [hc] at hacc
        simp only [if_true] at hacc
        exact Or.inl hacc
      | false =>
        rw [hc] at hacc
        simp only [Bool.false_eq_true, if_false] at hacc
        rcases List.mem_append.mp hacc with h1 | h2
        · exact Or.inl h1
        · exact Or.inr (List.mem_cons.mpr (Or.inl (List.mem_singleton.mp h2)))
    · exact Or.inr (List.mem_cons_of_mem x hxs)

theorem distinctKeys_sub_aux (eqb : α → α → Bool) :
    ∀ (l acc : List α),
      acc ⊆ l.foldl
        (fun acc x => if acc.any (fun y => eqb y x) then acc else acc ++ [x]) acc := by
  intro l
  induction l with
  | nil => exact fun acc => List.Subset.refl acc
  | cons x xs ih =>
    intro acc
    rw [List.foldl_cons]
    refine List.Subset.trans ?_ (ih _)
    cases hc : acc.any (fun y => eqb y x) with
    | true =>
      simp
    | false =>
      simp

theorem mem_of_mem_distinctKeys {eqb : α → α → Bool} {k : α} {l : List α}
    (h : k ∈ distinctKeys eqb l) : k ∈ l := by
  rcases distinctKeys_mem_aux eqb l [] k h with h0 | h1
  · exact absurd h0 (List.not_mem_nil k)
  · exact h1

theorem distinctKeys_covers_aux (eqb : α → α → Bool) (href : ∀ a, eqb a a = true) :
    ∀ (l acc : List α) (x : α), x ∈ l →
      ∃ k ∈ l.foldl
        (fun acc x => if acc.any (fun y => eqb y x) then acc else acc ++ [x]) acc,
        eqb k x = true := by
  intro l
  induction l with
  | nil =>
    intro acc x hx
    exact absurd hx (List.not_mem_nil x)
  | cons y ys ih =>
    intro acc x hx
    rw [List.foldl_cons]
    rcases List.mem_cons.mp hx with hxy | hx'
    · cases hc : acc.any (fun z => eqb z y) with
      | true =>
        rcases List.any_eq_true.mp hc with ⟨k0, hk0, heq⟩
        refine ⟨k0, distinctKeys_sub_aux eqb ys _ ?_, ?_⟩
        · simpa using hk0
        · rw [hxy]
          exact heq
      | false =>
        refine ⟨y, distinctKeys_sub_aux eqb ys _ ?_, ?_⟩
        · simp
        · rw [hxy]
          exact href y
    · exact ih _ x hx'

theorem distinctKeys_covers {eqb : α → α → Bool} (href : ∀ a, eqb a a = true)
    {x : α} {l : List α} (hx : x ∈ l) :
    ∃ k ∈ distinctKeys eqb l, eqb k x = true :=
  distinctKeys_covers_aux eqb href l [] x hx

theorem distinctKeys_nodup_aux (eqb : α → α → Bool) (href : ∀ a, eqb a a = true) :
    ∀ (l acc : List α), acc.Nodup →
      (l.foldl
        (fun acc x => if acc.any (fun y => eqb y x) then acc else acc ++ [x])
          acc).Nodup := by
  intro l
  induction l with
  | nil => exact fun acc h => h
  | cons x xs ih =>
    intro acc hacc
    rw [List.foldl_cons]
    refine ih _ ?_
    cases hc : acc.any (fun y => eqb y x) with
    | true =>
      simpa using hacc
    | false =>
      have hnot : x ∉ acc := by
        intro hmem
        have hall := List.any_eq_false.mp hc x hmem
        rw [href x] at hall
        exact hall rfl
      simpa using List.Nodup.append hacc (List.nodup_singleton x)
        (by simpa using hnot)

theorem distinctKeys_nodup {eqb : α → α → Bool} (href : ∀ a, eqb a a = true)
    (l : List α) : (distinctKeys eqb l).Nodup :=
  distinctKeys_nodup_aux eqb href l [] List.nodup_nil

theorem valueCounts_mem {eqb : α → α → Bool} {p : α × ℕ} {l : List α}
    (h : p ∈ valueCounts eqb l) :
    p.1 ∈ distinctKeys eqb l ∧ p.2 = countOcc eqb p.1 l := by
  rcases List.mem_map.mp h with ⟨k, hk, hkp⟩
  rw [← hkp]
  exact ⟨hk, rfl⟩

theorem valueCounts_covers {eqb : α → α → Bool} (href : ∀ a, eqb a a = true)
    {x : α} {l : List α} (hx : x ∈ l) :
    ∃ p ∈ valueCounts eqb l, eqb p.1 x = true ∧ p.2 = countOcc eqb p.1 l := by
  rcases distinctKeys_covers href hx with ⟨k, hk, hkx⟩
  exact ⟨(k, countOcc eqb k l), List.mem_map.mpr ⟨k, hk, rfl⟩, hkx, rfl⟩

theorem valueCounts_keys_nodup {eqb : α → α → Bool} (href : ∀ a, eqb a a = true)
    (l : List α) :
    (valueCounts eqb l).Pairwise (fun p q => p.1 ≠ q.1) := by
  rw [valueCounts, List.pairwise_map]
  exact List.Pairwise.imp (fun h => h) (distinctKeys_nodup href l)

theorem countOcc_filterMap (f : β → Option ℕ) (y : ℕ) (l : List β) :
    countOcc (fun a b => a == b) y (l.filterMap f) =
      (l.filter (fun r => f r == some y)).length := by
  induction l with
  | nil => rfl
  | cons x xs ih =>
    rw [List.filterMap_cons, List.filter_cons]
    cases hx : f x with
    | none =>
      simp only [Option.none_beq_some, Bool.false_eq_true, if_false]
      exact ih
    | some v =>
      by_cases hv : v = y
      · rw [hv]
        simp only [beq_self_eq_true, if_true]
        rw [countOcc, List.filter_cons]
        simp only [beq_self_eq_true, if_true, List.length_cons]
        rw [← countOcc, ih]
      · have h1 : (some v == some y) = false := by
          simp [hv]
        rw [h1]
        simp only [Bool.false_eq_true, if_false]
        rw [countOcc, List.filter_cons]
        have h2 : (y == v) = false := by
          simp [Ne.symm hv]
        rw [h2]
        simp only [Bool.false_eq_true, if_false]
        rw [← countOcc, ih]

/-! Facts about `parse_genres` and `movies_per_genre`. -/

theorem subscriptName_cases (x : PyVal) :
    (∃ v, x.subscriptName = Except.ok v) ∨
      x.subscriptName = Except.error PyExc.typeError ∨
      x.subscriptName = Except.error PyExc.keyError := by
  cases x with
  | vdict kvs =>
    cases h : kvs.lookup "name" with
    | none => right; right; simp [PyVal.subscriptName, h]
    | some v => left; exact ⟨v, by simp [PyVal.subscriptName, h]⟩
  | vstr s => right; left; rfl
  | vint n => right; left; rfl
  | vbool b => right; left; rfl
  | vnone => right; left; rfl
  | vlist xs => right; left; rfl

theorem mapM_subscript_cases (xs : List PyVal) :
    (∃ l, xs.mapM PyVal.subscriptName = Except.ok l) ∨
      xs.mapM PyVal.subscriptName = Except.error PyExc.typeError ∨
      xs.mapM PyVal.subscriptName = Except.error PyExc.keyError := by
  induction xs with
  | nil => exact Or.inl ⟨[], rfl⟩
  | cons x t ih =>
    rw [List.mapM_cons]
    rcases subscriptName_cases x with ⟨v, hv⟩ | hv | hv
    · rcases ih with ⟨l, hl⟩ | hl | hl
      · exact Or.inl ⟨v :: l, by rw [hv, hl]; rfl⟩
      · exact Or.inr (Or.inl (by rw [hv, hl]; rfl))
      · exact Or.inr (Or.inr (by rw [hv, hl]; rfl))
    · exact Or.inr (Or.inl (by rw [hv]; rfl))
    · exact Or.inr (Or.inr (by rw [hv]; rfl))

/-- Unfolding of `parse_genres` on a successful `eval` outcome. -/
theorem parse_genres_ok_unfold (v : PyVal) :
    parse_genres (Except.ok v) =
      match (v.iterate).bind (fun xs => xs.mapM PyVal.subscriptName) with
      | Except.ok names => Except.ok names
      | Except.error e =>
        if caughtByGenres e then Except.ok [] else Except.error e := rfl

/-- Unfolding of `parse_genres` on a raising `eval` outcome. -/
theorem parse_genres_error_unfold (e : PyExc) :
    parse_genres (Except.error e) =
      if caughtByGenres e then Except.ok [] else Except.error e := rfl

theorem parse_genres_caught {e : PyExc} (he : caughtByGenres e = true) :
    parse_genres (Except.error e) = Except.ok [] := by
  rw [parse_genres_error_unfold, if_pos he]

theorem parse_genres_uncaught {e : PyExc} (he : caughtByGenres e = false) :
    parse_genres (Except.error e) = Except.error e := by
  rw [parse_genres_error_unfold, if_neg (by simp [he])]

/-- Parsing a successfully evaluated genres value never raises: every
failure inside the comprehension is a TypeError or KeyError, which the
`except` clause catches. -/
theorem parse_genres_ok_of_ok (v : PyVal) :
    ∃ l, parse_genres (Except.ok v) = Except.ok l := by
  rw [parse_genres_ok_unfold]
  cases hit : v.iterate with
  | error e =>
    have he : e = PyExc.typeError := by
      cases v <;> simp [PyVal.iterate] at hit <;> simp [hit]
    refine ⟨[], ?_⟩
    rw [he]
    rfl
  | ok xs =>
    rcases mapM_subscript_cases xs with ⟨l, hl⟩ | hl | hl
    · refine ⟨l, ?_⟩
      show (match xs.mapM PyVal.subscriptName with
        | Except.ok names => Except.ok names
        | Except.error e =>
          if caughtByGenres e then Except.ok [] else Except.error e) = Except.ok l
      rw [hl]
    · refine ⟨[], ?_⟩
      show (match xs.mapM PyVal.subscriptName with
        | Except.ok names => Except.ok names
        | Except.error e =>
          if caughtByGenres e then Except.ok [] else Except.error e) = Except.ok []
      rw [hl]
      rfl
    · refine ⟨[], ?_⟩
      show (match xs.mapM PyVal.subscriptName with
        | Except.ok names => Except.ok names
        | Except.error e =>
          if caughtByGenres e then Except.ok [] else Except.error e) = Except.ok []
      rw [hl]
      rfl

/-- Name list a genres cell contributes after `parse_genres`, the caught
failures contributing the empty list. -/
def genreNamesOr (g : Except PyExc PyVal) : List PyVal :=
  match parse_genres g with
  | Except.ok l => l
  | Except.error _ => []

/-- All genre names of the metadata table, rows concatenated in order
(the exploded genres column). -/
def genreNameList (s : AnalyzerState) : List PyVal :=
  (s.metadata.rows.map (fun r => genreNamesOr r.genres)).flatten

/-- A genres cell whose `eval` outcome is either a value or one of the
exception classes the `except` clause catches. -/
def genresRecoverable (g : Except PyExc PyVal) : Prop :=
  ∀ e, g = Except.error e → caughtByGenres e = true

theorem parse_genres_recoverable {g : Except PyExc PyVal}
    (h : genresRecoverable g) :
    parse_genres g = Except.ok (genreNamesOr g) := by
  cases g with
  | ok v =>
    rcases parse_genres_ok_of_ok v with ⟨l, hl⟩
    simp [genreNamesOr, hl]
  | error e =>
    have hc := h e rfl
    simp [genreNamesOr, parse_genres_caught hc]

theorem mapM_parse_genres {rows : List MetaRow}
    (h : ∀ r ∈ rows, genresRecoverable r.genres) :
    rows.mapM (fun r => parse_genres r.genres)
      = Except.ok (rows.map (fun r => genreNamesOr r.genres)) := by
  induction rows with
  | nil => rfl
  | cons r t ih =>
    rw [List.mapM_cons, parse_genres_recoverable (h r (List.mem_cons_self r t)),
      ih (fun x hx => h x (List.mem_cons_of_mem r hx))]
    rfl

theorem movies_per_genre_recoverable {s : AnalyzerState}
    (h : ∀ r ∈ s.metadata.rows, genresRecoverable r.genres) :
    movies_per_genre s =
      Except.ok (sortStable (fun a b => decide (b.2 < a.2))
        (valueCounts (fun a b => a == b) (genreNameList s))) := by
  rw [movies_per_genre, mapM_parse_genres h]
  rfl

/-! Facts about `groupMeans` and `joinedMeans`. -/

theorem mem_groupMeans {rs : List RatingRow} {p : ℤ × ℚ} :
    p ∈ groupMeans rs ↔
      p.1 ∈ rs.map (fun r => r.movieId) ∧ p.2 = ratingMean rs p.1 := by
  rw [groupMeans]
  constructor
  · intro h
    rcases List.mem_map.mp h with ⟨k, hk, hkp⟩
    rw [← hkp]
    exact ⟨List.mem_dedup.mp (mem_sortStable.mp hk), rfl⟩
  · rintro ⟨h1, h2⟩
    refine List.mem_map.mpr ⟨p.1, mem_sortStable.mpr (List.mem_dedup.mpr h1), ?_⟩
    rw [← h2]

theorem mem_joinedMeans {s : AnalyzerState} {p : String × ℚ} :
    p ∈ joinedMeans s ↔
      ∃ k : ℤ, k ∈ s.ratings.map (fun r => r.movieId) ∧
        ∃ m ∈ s.metadata.rows, to_numeric m.id = Cell.cnum (k : ℚ) ∧
          p = (m.title, ratingMean s.ratings k) := by
  rw [joinedMeans]
  constructor
  · intro h
    rcases List.mem_flatten.mp h with ⟨L, hL, hpL⟩
    rcases List.mem_map.mp hL with ⟨kr, hkr, hkrL⟩
    rw [← hkrL] at hpL
    rcases List.mem_map.mp hpL with ⟨m', hm', hm'p⟩
    rcases List.mem_filter.mp hm' with ⟨hm'mem, hm'id⟩
    rcases List.mem_map.mp hm'mem with ⟨m, hm, hmm'⟩
    rcases mem_groupMeans.mp hkr with ⟨hk1, hk2⟩
    refine ⟨kr.1, hk1, m, hm, ?_, ?_⟩
    · have h2 : m'.id = Cell.cnum (kr.1 : ℚ) := eq_of_beq hm'id
      rw [← hmm'] at h2
      simpa [coerceIdRow] using h2
    · rw [← hm'p, ← hmm', ← hk2]
      simp [coerceIdRow]
  · rintro ⟨k, hk, m, hm, hid, hp⟩
    refine List.mem_flatten.mpr
      ⟨(((coerceIds s.metadata.rows).filter
          (fun mr => mr.id == Cell.cnum (k : ℚ))).map
          (fun mr => (mr.title, ratingMean s.ratings k))), ?_, ?_⟩
    · exact List.mem_map.mpr
        ⟨(k, ratingMean s.ratings k), mem_groupMeans.mpr ⟨hk, rfl⟩, rfl⟩
    · refine List.mem_map.mpr
        ⟨{ m with id := to_numeric m.id }, ?_, ?_⟩
      · refine List.mem_filter.mpr ⟨List.mem_map.mpr ⟨m, hm, rfl⟩, ?_⟩
        simp [hid]
      · rw [hp]

/-! Idempotence of the in-place coercions. -/

theorem to_numeric_idem (c : Cell) : to_numeric (to_numeric c) = to_numeric c := by
  cases c with
  | cstr s =>
    rw [to_numeric]
    cases parseNumeric s <;> rfl
  | cnum q => rfl
  | cdate y m d => rfl
  | cnull => rfl

theorem to_datetime_idem (c : Cell) :
    to_datetime (to_datetime c) = to_datetime c := by
  cases c with
  | cstr s =>
    rw [to_datetime]
    cases h : parseDate s with
    | none => rfl
    | some t =>
      cases t with
      | mk y md => cases md with | mk m d => rfl
  | cnum q => rfl
  | cdate y m d => rfl
  | cnull => rfl

theorem coerceIdRow_idem (r : MetaRow) :
    coerceIdRow (coerceIdRow r) = coerceIdRow r := by
  simp [coerceIdRow, to_numeric_idem]

theorem coerceIds_idem (rows : List MetaRow) :
    coerceIds (coerceIds rows) = coerceIds rows := by
  rw [coerceIds, coerceIds, List.map_map]
  exact List.map_congr_left (fun r _ => coerceIdRow_idem r)

theorem yearRow_idem (r : MetaRow) : yearRow (yearRow r) = yearRow r := by
  simp only [yearRow, to_datetime_idem]

theorem yearRows_idem (rows : List MetaRow) :
    (rows.map yearRow).map yearRow = rows.map yearRow := by
  rw [List.map_map]
  exact List.map_congr_left (fun r _ => yearRow_idem r)

/-! Unfolding lemmas for the two state-mutating methods. -/

theorem top_rated_fst (s : AnalyzerState) (n : ℕ) :
    (top_rated_movies s n).1 =
      { s with metadata :=
        { rows := coerceIds s.metadata.rows
          hasReleaseYear := s.metadata.hasReleaseYear } } := rfl

theorem top_rated_snd (s : AnalyzerState) (n : ℕ) :
    (top_rated_movies s n).2 =
      (sortStable (fun a b => decide (b.2 < a.2)) (joinedMeans s)).take n := rfl

theorem movies_per_year_fst (s : AnalyzerState) :
    (movies_per_year s).1 =
      { s with metadata :=
        { rows := s.metadata.rows.map yearRow, hasReleaseYear := true } } := rfl

theorem movies_per_year_snd (s : AnalyzerState) :
    (movies_per_year s).2 =
      sortStable (fun a b => decide (a.1 < b.1))
        (valueCounts (fun a b => a == b)
          ((s.metadata.rows.map yearRow).filterMap (fun r => r.release_year))) := rfl

/-- The same state with the metadata rows replaced (used to state row-level
properties of `unique_movies_count`). -/
def withMetaRows (s : AnalyzerState) (rs : List MetaRow) : AnalyzerState :=
  { s with metadata := { rows := rs, hasReleaseYear := s.metadata.hasReleaseYear } }

/-- The years of the coerced release dates of the metadata rows, parse
failures excluded. -/
def releaseYears (s : AnalyzerState) : List ℕ :=
  s.metadata.rows.filterMap (fun r => dtYear (to_datetime r.release_date))

/-- The non-null entries of the keywords `name` column. -/
def keywordNames (s : AnalyzerState) : List String :=
  s.keywords.filterMap (fun k => k.name)

theorem releaseYears_eq (s : AnalyzerState) :
    (s.metadata.rows.map yearRow).filterMap (fun r => r.release_year)
      = releaseYears s := by
  rw [List.filterMap_map, releaseYears]
  rfl

/-! Concrete loaded states used as examples and counterexamples.  They are
small instances of the CSV data: metadata ids are the raw strings the
loader produces, ratings reference movies by `movieId`. -/

/-- One metadata row (derived `release_year` column not yet computed). -/
def mkMeta (id : Cell) (t : String) (g : Except PyExc PyVal) (rd : Cell) : MetaRow :=
  { id := id, title := t, genres := g, release_date := rd, release_year := none }

/-- One rating observation. -/
def mkRating (u k : ℤ) (q : ℚ) : RatingRow :=
  { userId := u, movieId := k, rating := q, timestamp := 0 }

/-- A loaded state with all five tables empty (base for the examples). -/
def emptyState : AnalyzerState :=
  { metadata := { rows := [], hasReleaseYear := false },
    ratings := [], credits := [], keywords := [], links := [] }

/-- An always-parseable genres cell (the empty Python list). -/
def okG : Except PyExc PyVal := Except.ok (PyVal.vlist PyList.nil)

/-- C1 example: per-movie means movieA 5.0, movieB 3.0, movieC 4.0 with
matching metadata titles. -/
def c1St : AnalyzerState :=
  { emptyState with
    metadata :=
      { rows :=
          [ mkMeta (Cell.cstr "1") "movieA" okG Cell.cnull
          , mkMeta (Cell.cstr "2") "movieB" okG Cell.cnull
          , mkMeta (Cell.cstr "3") "movieC" okG Cell.cnull ],
        hasReleaseYear := false },
    ratings := [mkRating 1 1 5, mkRating 2 2 3, mkRating 3 3 4] }

/-- A Python dict value carrying one genre name. -/
def genreD (t : String) : PyVal := PyVal.vdict (PyDict.dcons "name" (PyVal.vstr t) PyDict.dnil)

/-- C2 example: genre cells parsing to Action, Action plus Drama, and a
malformed cell whose evaluation raises SyntaxError (caught). -/
def c2St : AnalyzerState :=
  { emptyState with
    metadata :=
      { rows :=
          [ mkMeta (Cell.cstr "1") "a"
              (Except.ok (PyVal.vlist (PyList.cons (genreD "Action") PyList.nil))) Cell.cnull
          , mkMeta (Cell.cstr "2") "b"
              (Except.ok (PyVal.vlist
                (PyList.cons (genreD "Action") (PyList.cons (genreD "Drama") PyList.nil)))) Cell.cnull
          , mkMeta (Cell.cstr "3") "c" (Except.error PyExc.syntaxError) Cell.cnull ],
        hasReleaseYear := false } }

/-- C2 counterexample state: one genres cell whose evaluation raises
NameError (as the text `[{"name": null}]` does: `null` is not a Python
name), which the `except (SyntaxError, TypeError, KeyError)` clause does
not catch. -/
def c2BadSt : AnalyzerState :=
  { emptyState with
    metadata :=
      { rows := [mkMeta (Cell.cstr "1") "a" (Except.error PyExc.nameError) Cell.cnull],
        hasReleaseYear := false } }

/-- C3 counterexample: the links table maps the rating's movieId 10 to the
metadata identifier 20, yet the code joins `movieId` to `id` directly. -/
def c3Rating : RatingRow := mkRating 1 10 4

/-- C3 counterexample metadata row with identifier 20. -/
def c3Meta : MetaRow := mkMeta (Cell.cstr "20") "movieX" okG Cell.cnull

/-- C3 counterexample state. -/
def c3St : AnalyzerState :=
  { emptyState with
    metadata := { rows := [c3Meta], hasReleaseYear := false },
    ratings := [c3Rating],
    links := [{ movieId := 10, imdbId := 100, tmdbId := some 20 }] }

/-- C4 example: release dates 1999-01-01, 1999-06-01, 2001-03-03 and an
unparseable date. -/
def c4St : AnalyzerState :=
  { emptyState with
    metadata :=
      { rows :=
          [ mkMeta (Cell.cstr "1") "a" okG (Cell.cstr "1999-01-01")
          , mkMeta (Cell.cstr "2") "b" okG (Cell.cstr "1999-06-01")
          , mkMeta (Cell.cstr "3") "c" okG (Cell.cstr "2001-03-03")
          , mkMeta (Cell.cstr "4") "d" okG (Cell.cstr "not a date") ],
        hasReleaseYear := false } }

/-- C5 example: ratings 1, 2, 3. -/
def c5St : AnalyzerState :=
  { emptyState with
    ratings := [mkRating 1 1 1, mkRating 1 2 2, mkRating 1 3 3] }

/-- C6 example: ids 7, 7 (duplicate) and one null id. -/
def c6St : AnalyzerState :=
  { emptyState with
    metadata :=
      { rows :=
          [ mkMeta (Cell.cstr "7") "a" okG Cell.cnull
          , mkMeta (Cell.cstr "7") "b" okG Cell.cnull
          , mkMeta Cell.cnull "c" okG Cell.cnull ],
        hasReleaseYear := false } }

/-- A metadata row whose id duplicates one already in `c6St`. -/
def c6Dup : MetaRow := mkMeta (Cell.cstr "7") "d" okG Cell.cnull

/-- A metadata row with a null id. -/
def c6Null : MetaRow := mkMeta Cell.cnull "e" okG Cell.cnull

/-- C7 example: keyword names space, space, alien. -/
def c7St : AnalyzerState :=
  { emptyState with
    keywords := [{ name := some "space" }, { name := some "space" }, { name := some "alien" }] }

/-- C8 counterexample state: any loaded metadata before `movies_per_year`
has run. -/
def c8St : AnalyzerState :=
  { emptyState with
    metadata :=
      { rows := [mkMeta (Cell.cstr "1") "a" okG (Cell.cstr "1999-01-01")],
        hasReleaseYear := false } }

/-- C10 state: one non-numeric id string and one numeric id string. -/
def c10St : AnalyzerState :=
  { emptyState with
    metadata :=
      { rows :=
          [ mkMeta (Cell.cstr "abc") "a" okG Cell.cnull
          , mkMeta (Cell.cstr "5") "b" okG Cell.cnull ],
        hasReleaseYear := false } }

/-! Claim theorems. -/

/-- C5: for every loaded state with at least one rating observation,
`average_rating` returns the arithmetic mean of the rating column over all
observations (so on ratings 1, 2, 3 it returns 2.0); when there are zero
rating observations it returns not-a-number (modelled as `none`) and does
not raise. -/
theorem C5_average_rating (s : AnalyzerState) :
    (average_rating s = none ↔ s.ratings = [])
    ∧ (s.ratings ≠ [] →
        average_rating s =
          some ((s.ratings.map (fun r => r.rating)).sum / (s.ratings.length : ℚ)))
    ∧ average_rating c5St = some 2 := by
  refine ⟨?_, ?_, by decide⟩
  · by_cases he : s.ratings = []
    · simp [average_rating, he]
    · simp [average_rating, List.isEmpty_iff, he]
  · intro h
    exact average_rating_eq_mean s (by simp [List.isEmpty_iff, h])

theorem C5_average_rating_witness :
    average_rating c5St =
      some ((c5St.ratings.map (fun r => r.rating)).sum / (c5St.ratings.length : ℚ)) :=
  (C5_average_rating c5St).2.1 (by decide)

/-- C6: for every loaded state, `unique_movies_count` equals the number of
distinct non-null identifiers in the metadata table: a prepended row with
a null identifier does not change the count, and a prepended row whose
identifier already occurs does not change the count. -/
theorem C6_unique_movies_count (s : AnalyzerState) (r : MetaRow) :
    unique_movies_count s =
      ((s.metadata.rows.map (fun x => x.id)).filter
        (fun c => c ≠ Cell.cnull)).toFinset.card
    ∧ (r.id = Cell.cnull →
        unique_movies_count (withMetaRows s (r :: s.metadata.rows))
          = unique_movies_count s)
    ∧ (r.id ≠ Cell.cnull → r.id ∈ s.metadata.rows.map (fun x => x.id) →
        unique_movies_count (withMetaRows s (r :: s.metadata.rows))
          = unique_movies_count s) := by
  refine ⟨(List.card_toFinset _).symm, ?_, ?_⟩
  · intro h
    simp [unique_movies_count, withMetaRows, h]
  · intro h1 h2
    rw [unique_movies_count, withMetaRows]
    simp only [List.map_cons]
    rw [List.filter_cons_of_pos (by simp [h1]),
      List.dedup_cons_of_mem (List.mem_filter.mpr ⟨h2, by simp [h1]⟩)]
    rfl

theorem C6_unique_movies_count_witness :
    unique_movies_count (withMetaRows c6St (c6Dup :: c6St.metadata.rows))
      = unique_movies_count c6St
    ∧ unique_movies_count (withMetaRows c6St (c6Null :: c6St.metadata.rows))
      = unique_movies_count c6St :=
  ⟨(C6_unique_movies_count c6St c6Dup).2.2 (by decide) (by decide),
   (C6_unique_movies_count c6St c6Null).2.1 (by decide)⟩

/-- C10: calling `top_rated_movies` overwrites the metadata identifier
column in place with numerically coerced values (the non-numeric string
"abc" becomes null), so `unique_movies_count` after `top_rated_movies`
returns a smaller value (1) than before it (2): the queries are not
order-independent. -/
theorem C10_order_dependence :
    unique_movies_count c10St = 2
    ∧ unique_movies_count ((top_rated_movies c10St 5).1) = 1
    ∧ unique_movies_count ((top_rated_movies c10St 5).1) < unique_movies_count c10St
    ∧ (top_rated_movies c10St 5).1.metadata.rows.map (fun r => r.id)
        = [Cell.cnull, Cell.cnum 5] := by
  refine ⟨by decide, by decide, by decide, by decide⟩

/-- C4: for every loaded state, `movies_per_year` parses each release date
(unparseable dates become null and those rows fall in no year bucket),
extracts the year, and returns one (year, count) entry per occurring year
with keys strictly ascending, each count being the number of rows whose
coerced release date has that year; on release dates 1999-01-01,
1999-06-01, 2001-03-03 and an invalid date it returns
[(1999, 2), (2001, 1)]. -/
theorem C4_movies_per_year (s : AnalyzerState) :
    ((movies_per_year s).2).Pairwise (fun a b => a.1 < b.1)
    ∧ (∀ p ∈ (movies_per_year s).2,
        p.1 ∈ releaseYears s ∧
        p.2 = (s.metadata.rows.filter
          (fun r => dtYear (to_datetime r.release_date) == some p.1)).length)
    ∧ (∀ y ∈ releaseYears s, ∃ p ∈ (movies_per_year s).2, p.1 = y)
    ∧ (movies_per_year c4St).2 = [(1999, 2), (2001, 1)] := by
  have hsnd : (movies_per_year s).2
      = sortStable (fun a b => decide (a.1 < b.1))
          (valueCounts (fun a b => a == b) (releaseYears s)) := by
    rw [movies_per_year_snd, releaseYears_eq]
  have href : ∀ y : ℕ, ((fun a b => a == b) y y) = true := fun y => beq_self_eq_true y
  refine ⟨?_, ?_, ?_, by decide⟩
  · rw [hsnd]
    have hle : (sortStable (fun a b => decide (a.1 < b.1))
        (valueCounts (fun a b => a == b) (releaseYears s))).Pairwise
          (fun (a b : ℕ × ℕ) => a.1 ≤ b.1) := by
      refine sortStable_pairwise ?_ ?_ ?_ _
      · intro a b h
        exact le_of_lt (of_decide_eq_true h)
      · intro a b h
        exact le_of_not_lt (of_decide_eq_false h)
      · intro a b c h1 h2
        exact le_trans h1 h2
    have hne : (sortStable (fun a b => decide (a.1 < b.1))
        (valueCounts (fun a b => a == b) (releaseYears s))).Pairwise
          (fun (a b : ℕ × ℕ) => a.1 ≠ b.1) := by
      refine ((sortStable_perm _ _).pairwise_iff (fun hab => Ne.symm hab)).mpr ?_
      exact valueCounts_keys_nodup href _
    exact (hle.and hne).imp (fun h => lt_of_le_of_ne h.1 h.2)
  · intro p hp
    rw [hsnd] at hp
    have hvc := valueCounts_mem (mem_sortStable.mp hp)
    refine ⟨mem_of_mem_distinctKeys hvc.1, ?_⟩
    rw [hvc.2, releaseYears]
    exact countOcc_filterMap _ _ _
  · intro y hy
    rcases valueCounts_covers href hy with ⟨p, hp, hpx, _⟩
    refine ⟨p, ?_, eq_of_beq hpx⟩
    rw [hsnd]
    exact mem_sortStable.mpr hp

theorem C4_movies_per_year_witness :
    (1999, 2) ∈ (movies_per_year c4St).2
    ∧ 2 = (c4St.metadata.rows.filter
        (fun r => dtYear (to_datetime r.release_date) == some 1999)).length :=
  ⟨by decide, ((C4_movies_per_year c4St).2.1 (1999, 2) (by decide)).2⟩

theorem top_keywords_unfold (s : AnalyzerState) (n : ℕ) :
    top_keywords s n =
      (sortStable (fun a b => decide (b.2 < a.2))
        (valueCounts (fun a b => a == b) (keywordNames s))).take n := rfl

/-- C7: for every loaded state and every n, `top_keywords(n)` counts the
occurrences of each distinct keyword name across the keywords table and
returns the n most frequent names as (keyword, count) pairs, ordered by
descending count; on names space, space, alien, `top_keywords(1)` returns
[(space, 2)]. -/
theorem C7_top_keywords (s : AnalyzerState) (n : ℕ) :
    (top_keywords s n).length
        = min n (valueCounts (fun a b => a == b) (keywordNames s)).length
    ∧ (top_keywords s n).Pairwise (fun a b => b.2 ≤ a.2)
    ∧ (∀ p ∈ top_keywords s n,
        p.1 ∈ keywordNames s ∧
        p.2 = countOcc (fun a b => a == b) p.1 (keywordNames s))
    ∧ (∀ q ∈ valueCounts (fun a b => a == b) (keywordNames s),
        q ∉ top_keywords s n → ∀ p ∈ top_keywords s n, q.2 ≤ p.2)
    ∧ top_keywords c7St 1 = [("space", 2)] := by
  have hpair : (sortStable (fun a b => decide (b.2 < a.2))
      (valueCounts (fun a b => a == b) (keywordNames s))).Pairwise
        (fun (a b : String × ℕ) => b.2 ≤ a.2) := by
    refine sortStable_pairwise ?_ ?_ ?_ _
    · intro a b h
      exact le_of_lt (of_decide_eq_true h)
    · intro a b h
      exact le_of_not_lt (of_decide_eq_false h)
    · intro a b c h1 h2
      exact le_trans h2 h1
  refine ⟨?_, ?_, ?_, ?_, by decide⟩
  · rw [top_keywords_unfold, List.length_take, (sortStable_perm _ _).length_eq]
  · rw [top_keywords_unfold]
    exact hpair.sublist (List.take_sublist _ _)
  · intro p hp
    rw [top_keywords_unfold] at hp
    have hvc := valueCounts_mem (mem_sortStable.mp (List.take_subset _ _ hp))
    exact ⟨mem_of_mem_distinctKeys hvc.1, hvc.2⟩
  · intro q hq hqn p hp
    rw [top_keywords_unfold] at hqn hp
    have hqs : q ∈ sortStable (fun a b => decide (b.2 < a.2))
        (valueCounts (fun a b => a == b) (keywordNames s)) := mem_sortStable.mpr hq
    rw [← List.take_append_drop n (sortStable (fun a b => decide (b.2 < a.2))
      (valueCounts (fun a b => a == b) (keywordNames s)))] at hqs
    rcases List.mem_append.mp hqs with hqt | hqd
    · exact absurd hqt hqn
    · exact take_pairwise_drop hpair n p hp q hqd

theorem C7_top_keywords_witness :
    ("space", 2) ∈ top_keywords c7St 1
    ∧ 2 = countOcc (fun a b => a == b) "space" (keywordNames c7St) :=
  ⟨by decide, ((C7_top_keywords c7St 1).2.2.1 ("space", 2) (by decide)).2⟩

/-- C1: for every loaded state and every n, `top_rated_movies(n)` returns
(title, mean rating) pairs ordered by descending mean: each returned pair
is the per-movie arithmetic mean of some rating group inner-joined to a
metadata row whose coerced identifier equals the group's movie reference
(rating groups without a metadata match, and metadata movies without
ratings, yield no pair), the n returned rows dominate every joined row
left out, and on per-movie means movieA 5.0, movieB 3.0, movieC 4.0 with
matching titles, `top_rated_movies(2)` returns movieA then movieC. -/
theorem C1_top_rated_movies (s : AnalyzerState) (n : ℕ) :
    ((top_rated_movies s n).2).Pairwise (fun a b => b.2 ≤ a.2)
    ∧ (top_rated_movies s n).2.length = min n (joinedMeans s).length
    ∧ (∀ p ∈ (top_rated_movies s n).2,
        ∃ k : ℤ, k ∈ s.ratings.map (fun r => r.movieId) ∧
          ∃ m ∈ s.metadata.rows, to_numeric m.id = Cell.cnum (k : ℚ) ∧
            p = (m.title, ratingMean s.ratings k))
    ∧ (∀ q ∈ joinedMeans s, q ∉ (top_rated_movies s n).2 →
        ∀ p ∈ (top_rated_movies s n).2, q.2 ≤ p.2)
    ∧ (top_rated_movies c1St 2).2 = [("movieA", 5), ("movieC", 4)] := by
  have hpair : (sortStable (fun a b => decide (b.2 < a.2)) (joinedMeans s)).Pairwise
      (fun (a b : String × ℚ) => b.2 ≤ a.2) := by
    refine sortStable_pairwise ?_ ?_ ?_ _
    · intro a b h
      exact le_of_lt (of_decide_eq_true h)
    · intro a b h
      exact le_of_not_lt (of_decide_eq_false h)
    · intro a b c h1 h2
      exact le_trans h2 h1
  refine ⟨?_, ?_, ?_, ?_, by decide⟩
  · rw [top_rated_snd]
    exact hpair.sublist (List.take_sublist _ _)
  · rw [top_rated_snd, List.length_take, (sortStable_perm _ _).length_eq]
  · intro p hp
    rw [top_rated_snd] at hp
    exact mem_joinedMeans.mp (mem_sortStable.mp (List.take_subset _ _ hp))
  · intro q hq hqn p hp
    rw [top_rated_snd] at hqn hp
    have hqs : q ∈ sortStable (fun a b => decide (b.2 < a.2)) (joinedMeans s) :=
      mem_sortStable.mpr hq
    rw [← List.take_append_drop n
      (sortStable (fun a b => decide (b.2 < a.2)) (joinedMeans s))] at hqs
    rcases List.mem_append.mp hqs with hqt | hqd
    · exact absurd hqt hqn
    · exact take_pairwise_drop hpair n p hp q hqd

theorem C1_top_rated_movies_witness :
    ("movieA", (5 : ℚ)) ∈ (top_rated_movies c1St 2).2
    ∧ ∃ k : ℤ, k ∈ c1St.ratings.map (fun r => r.movieId) ∧
        ∃ m ∈ c1St.metadata.rows, to_numeric m.id = Cell.cnum (k : ℚ) ∧
          (("movieA", (5 : ℚ)) : String × ℚ) = (m.title, ratingMean c1St.ratings k) :=
  ⟨by decide, (C1_top_rated_movies c1St 2).2.2.1 ("movieA", 5) (by decide)⟩

/-- Modelled from the spec of claim C3: the claimed alignment of a rating
observation with a metadata movie through the links id-mapping table (the
links row carries the observation's `movieId` and maps it to the movie's
identifier). -/
def specLinksAligned (s : AnalyzerState) (r : RatingRow) (m : MetaRow) : Prop :=
  ∃ l ∈ s.links, l.movieId = r.movieId ∧
    ∃ t : ℤ, l.tmdbId = some t ∧ to_numeric m.id = Cell.cnum (t : ℚ)

/-- C3 counterexample: in `c3St` the links table aligns the rating
(movieId 10) with the metadata movie (identifier 20), so the claim says
the rating contributes to that movie's mean; but the code's merge joins
`movieId` to `id` directly, the join is empty, and `top_rated_movies`
returns nothing. -/
theorem C3_links_join_counterexample :
    specLinksAligned c3St c3Rating c3Meta
    ∧ c3Rating ∈ c3St.ratings
    ∧ c3Meta ∈ c3St.metadata.rows
    ∧ joinedMeans c3St = []
    ∧ (top_rated_movies c3St 5).2 = [] := by
  refine ⟨⟨{ movieId := 10, imdbId := 100, tmdbId := some 20 }, by decide, by decide,
    20, by decide, by decide⟩, by decide, by decide, by decide, by decide⟩

/-- C3 amended: the reconciliation in `top_rated_movies` joins the ratings
table's `movieId` directly to the numerically coerced metadata `id`; the
links id-mapping table is never consulted (the result is invariant under
any replacement of the links table), and a joined pair exists exactly when
some rating group's movie reference equals a metadata row's coerced
identifier. -/
theorem C3_direct_join (s : AnalyzerState) (ls : List LinkRow) (n : ℕ) :
    (top_rated_movies { s with links := ls } n).2 = (top_rated_movies s n).2
    ∧ (∀ p : String × ℚ,
        p ∈ joinedMeans s ↔
          ∃ k : ℤ, k ∈ s.ratings.map (fun r => r.movieId) ∧
            ∃ m ∈ s.metadata.rows, to_numeric m.id = Cell.cnum (k : ℚ) ∧
              p = (m.title, ratingMean s.ratings k)) :=
  ⟨rfl, fun _ => mem_joinedMeans⟩

/-- C2 counterexample: a genres cell whose evaluation raises NameError (as
JSON-style text such as a cell containing `null` does) propagates out of
`movies_per_genre` instead of being recovered as an empty genre list: the
claim predicts `ok` with the row contributing nothing, the code raises. -/
theorem C2_genre_parse_counterexample :
    movies_per_genre c2BadSt = Except.error PyExc.nameError
    ∧ movies_per_genre c2BadSt ≠ Except.ok [] := by
  refine ⟨rfl, ?_⟩
  intro h
  rw [show movies_per_genre c2BadSt = Except.error PyExc.nameError from rfl] at h
  exact Except.noConfusion h

/-- C2 amended: per-row genre parse failures raising SyntaxError, TypeError
or KeyError yield an empty genre list for that row and never propagate
(and a successfully evaluated cell never raises, every comprehension
failure being caught); evaluation failures of any other class (e.g.
NameError) propagate out of `movies_per_genre`.  When every row is
recoverable, the result counts occurrences per distinct genre name over
the flattened per-row name lists; on cells parsing to Action,
Action plus Drama, and a SyntaxError cell, the result is
Action 2, Drama 1. -/
theorem C2_genre_parse_amended (s : AnalyzerState) (e : PyExc) (v : PyVal) :
    (caughtByGenres e = true → parse_genres (Except.error e) = Except.ok [])
    ∧ (caughtByGenres e = false → parse_genres (Except.error e) = Except.error e)
    ∧ (∃ l, parse_genres (Except.ok v) = Except.ok l)
    ∧ ((∀ r ∈ s.metadata.rows, genresRecoverable r.genres) →
        ∃ out, movies_per_genre s = Except.ok out
          ∧ (∀ p ∈ out, p.1 ∈ genreNameList s
              ∧ p.2 = countOcc (fun a b => a == b) p.1 (genreNameList s))
          ∧ (∀ x ∈ genreNameList s, ∃ p ∈ out, p.1 = x))
    ∧ movies_per_genre c2St
        = Except.ok [(PyVal.vstr "Action", 2), (PyVal.vstr "Drama", 1)] := by
  refine ⟨fun h => parse_genres_caught h, fun h => parse_genres_uncaught h,
    parse_genres_ok_of_ok v, ?_, rfl⟩
  intro h
  refine ⟨_, movies_per_genre_recoverable h, ?_, ?_⟩
  · intro p hp
    have hvc := valueCounts_mem (mem_sortStable.mp hp)
    exact ⟨mem_of_mem_distinctKeys hvc.1, hvc.2⟩
  · intro x hx
    have href : ∀ a : PyVal, ((fun a b => a == b) a a) = true :=
      fun a => beq_self_eq_true a
    rcases valueCounts_covers href hx with ⟨p, hp, hpx, _⟩
    exact ⟨p, mem_sortStable.mpr hp, eq_of_beq hpx⟩

theorem C2_genre_parse_amended_witness :
    parse_genres (Except.error PyExc.syntaxError) = Except.ok [] :=
  (C2_genre_parse_amended c2St PyExc.syntaxError PyVal.vnone).1 (by decide)

/-- C8 counterexample: computing `movies_per_year` on a freshly loaded
state adds exactly one column to the metadata table (`release_year`; the
parsed `release_date` overwrites the existing column in place), not two as
claimed. -/
theorem C8_two_columns_counterexample :
    metaColumns ((movies_per_year c8St).1.metadata)
      = metaColumns c8St.metadata ++ ["release_year"]
    ∧ (metaColumns ((movies_per_year c8St).1.metadata)).length
        = (metaColumns c8St.metadata).length + 1
    ∧ (metaColumns ((movies_per_year c8St).1.metadata)).length
        ≠ (metaColumns c8St.metadata).length + 2 := by
  refine ⟨by decide, by decide, by decide⟩

/-- C8 amended: no analyzer aggregation changes the row count of any
loaded table, and the only column change is to the metadata table, which
gains the single derived column `release_year` as a side effect of
`movies_per_year` (the coerced `release_date` and `id` values are
overwritten in place without a column change); every subsequent operation
on the metadata table observes the extra column, and the four other
tables are never modified (the read-only queries take the state
read-only, so only the two coercing methods are stated). -/
theorem C8_frame_amended (s : AnalyzerState) (n : ℕ) :
    (movies_per_year s).1.metadata.rows.length = s.metadata.rows.length
    ∧ (movies_per_year s).1.ratings = s.ratings
    ∧ (movies_per_year s).1.credits = s.credits
    ∧ (movies_per_year s).1.keywords = s.keywords
    ∧ (movies_per_year s).1.links = s.links
    ∧ (s.metadata.hasReleaseYear = false →
        metaColumns ((movies_per_year s).1.metadata)
          = metaColumns s.metadata ++ ["release_year"])
    ∧ metaColumns ((movies_per_year s).1.metadata)
        = ["id", "title", "genres", "release_date", "release_year"]
    ∧ (top_rated_movies s n).1.metadata.rows.length = s.metadata.rows.length
    ∧ metaColumns ((top_rated_movies s n).1.metadata) = metaColumns s.metadata
    ∧ (top_rated_movies s n).1.ratings = s.ratings
    ∧ (top_rated_movies s n).1.credits = s.credits
    ∧ (top_rated_movies s n).1.keywords = s.keywords
    ∧ (top_rated_movies s n).1.links = s.links := by
  refine ⟨?_, rfl, rfl, rfl, rfl, ?_, ?_, ?_, rfl, rfl, rfl, rfl, rfl⟩
  · rw [movies_per_year_fst]
    simp
  · intro h
    rw [movies_per_year_fst]
    simp [metaColumns, h]
  · rw [movies_per_year_fst]
    simp [metaColumns]
  · rw [top_rated_fst]
    simp [coerceIds]

theorem C8_frame_amended_witness :
    metaColumns ((movies_per_year c8St).1.metadata)
      = metaColumns c8St.metadata ++ ["release_year"] :=
  (C8_frame_amended c8St 5).2.2.2.2.2.1 (by decide)

/-- C9: every analyzer query is idempotent.  The four read-only queries
(`unique_movies_count`, `average_rating`, `movies_per_genre`,
`top_keywords`) take the loaded state without returning one, so a second
call in succession is the same application (stated as such); the two
coercing queries (`top_rated_movies`, `movies_per_year`) mutate the
metadata table, and threading the mutated state into a second call
returns the same state and the same result, because the in-place
coercions `pd.to_numeric` and `pd.to_datetime` are idempotent on already
coerced columns. -/
theorem C9_idempotent (s : AnalyzerState) (n : ℕ) :
    unique_movies_count s = unique_movies_count s
    ∧ average_rating s = average_rating s
    ∧ movies_per_genre s = movies_per_genre s
    ∧ top_keywords s n = top_keywords s n
    ∧ (top_rated_movies ((top_rated_movies s n).1) n).1 = (top_rated_movies s n).1
    ∧ (top_rated_movies ((top_rated_movies s n).1) n).2 = (top_rated_movies s n).2
    ∧ (movies_per_year ((movies_per_year s).1)).1 = (movies_per_year s).1
    ∧ (movies_per_year ((movies_per_year s).1)).2 = (movies_per_year s).2 := by
  have hjm : joinedMeans ((top_rated_movies s n).1) = joinedMeans s := by
    rw [top_rated_fst]
    simp [joinedMeans, coerceIds_idem]
  refine ⟨rfl, rfl, rfl, rfl, ?_, ?_, ?_, ?_⟩
  · rw [top_rated_fst s n, top_rated_fst]
    simp [coerceIds_idem]
  · rw [top_rated_snd, top_rated_snd, hjm]
  · rw [movies_per_year_fst s, movies_per_year_fst]
    rw [show ({ s with metadata :=
        { rows := s.metadata.rows.map yearRow, hasReleaseYear := true } }
          : AnalyzerState).metadata.rows = s.metadata.rows.map yearRow from rfl,
      yearRows_idem]
  · rw [movies_per_year_snd, movies_per_year_snd, movies_per_year_fst]
    rw [show ({ s with metadata :=
        { rows := s.metadata.rows.map yearRow, hasReleaseYear := true } }
          : AnalyzerState).metadata.rows = s.metadata.rows.map yearRow from rfl,
      yearRows_idem]

theorem C3_direct_join_witness :
    (top_rated_movies { c3St with links := [] } 5).2 = (top_rated_movies c3St 5).2 :=
  (C3_direct_join c3St [] 5).1
